import Mathlib

/-!
# wasmtime `conf.h`: the build-time feature header

`dart/third_party/wasmtime/min/include/wasmtime/conf.h` is a generated C
header.  It has no functions; what it *does* is what the C preprocessor does
when a translation unit includes it: it changes the set of defined macros.

The development below embeds

* the header itself, line for line (`confH`);
* the part of the C preprocessor the header exercises: line splicing, comment
  removal, tokenisation of a line, the directives `#ifndef`, `#ifdef`,
  `#if defined(..) || ..`, `#endif`, `#define`, `#undef`, and the stack of open
  conditional groups.  Anything outside that fragment is rejected (`none`),
  never silently mis-read;
* a reader for the `WASMTIME_FEATURE_LIST` block, whose entries are either
  `#define NAME` or the commented form `/* #undef NAME */`.

A macro environment is the finite set of names that are currently defined.
-/

namespace WasmtimeConf

set_option maxRecDepth 100000

/-! ## The header -/

/-- The text of `wasmtime/conf.h`, one string per source line (40 lines; the
file does not end in a newline). -/
def confH : List String :=
  [ "/**",
    " * \\file wasmtime/conf.h",
    " *",
    " * \\brief Build-time defines for how the C API was built.",
    " */",
    "",
    "#ifndef WASMTIME_CONF_H",
    "#define WASMTIME_CONF_H",
    "",
    "// WASMTIME_FEATURE_LIST",
    "/* #undef WASMTIME_FEATURE_PROFILING */",
    "/* #undef WASMTIME_FEATURE_WAT */",
    "/* #undef WASMTIME_FEATURE_CACHE */",
    "/* #undef WASMTIME_FEATURE_PARALLEL_COMPILATION */",
    "/* #undef WASMTIME_FEATURE_WASI */",
    "/* #undef WASMTIME_FEATURE_LOGGING */",
    "#define WASMTIME_FEATURE_DISABLE_LOGGING",
    "/* #undef WASMTIME_FEATURE_COREDUMP */",
    "/* #undef WASMTIME_FEATURE_ADDR2LINE */",
    "/* #undef WASMTIME_FEATURE_DEMANGLE */",
    "/* #undef WASMTIME_FEATURE_THREADS */",
    "/* #undef WASMTIME_FEATURE_GC */",
    "/* #undef WASMTIME_FEATURE_GC_DRC */",
    "/* #undef WASMTIME_FEATURE_GC_NULL */",
    "/* #undef WASMTIME_FEATURE_ASYNC */",
    "/* #undef WASMTIME_FEATURE_CRANELIFT */",
    "/* #undef WASMTIME_FEATURE_WINCH */",
    "/* #undef WASMTIME_FEATURE_DEBUG_BUILTINS */",
    "/* #undef WASMTIME_FEATURE_POOLING_ALLOCATOR */",
    "/* #undef WASMTIME_FEATURE_COMPONENT_MODEL */",
    "/* #undef WASMTIME_FEATURE_PULLEY */",
    "/* #undef WASMTIME_FEATURE_ALL_ARCH */",
    "// ... if you add a line above this be sure to change the other locations",
    "// marked WASMTIME_FEATURE_LIST",
    "",
    "#if defined(WASMTIME_FEATURE_CRANELIFT) || defined(WASMTIME_FEATURE_WINCH)",
    "#define WASMTIME_FEATURE_COMPILER",
    "#endif",
    "",
    "#endif // WASMTIME_CONF_H" ]

/-! ## Characters, lines, comments -/

/-- Line feed, the line separator of the file. -/
def newline : Char := Char.ofNat 10

/-- The backslash (line continuation when it ends a line). -/
def backslash : Char := Char.ofNat 92

/-- The double quote (opens a string literal). -/
def dquote : Char := Char.ofNat 34

/-- The single quote (opens a character constant). -/
def squote : Char := Char.ofNat 39

/-- The file as one character stream: the lines separated by line feeds. -/
def joinLines : List String → List Char
  | [] => []
  | [l] => l.toList
  | l :: ls => l.toList ++ newline :: joinLines ls

/-- Translation phase 2: a backslash immediately followed by a line feed is
deleted, joining the two physical lines. -/
def spliceLines : List Char → List Char
  | [] => []
  | [c] => [c]
  | c :: d :: rest =>
    if c = backslash ∧ d = newline then spliceLines rest
    else c :: spliceLines (d :: rest)

/-- Where the comment scanner is: in code, inside a block comment, or inside a
line comment. -/
inductive LexMode
  | code
  | block
  | line
  deriving DecidableEq, Repr

/-- Translation phase 3, comments: every comment is replaced by one space.  A
block comment swallows the line feeds inside it, a line comment ends before
its line feed.  A block comment still open at the end of the file, and a quote
character in code (string literals and character constants are outside the
fragment), are rejected. -/
def stripComments : LexMode → List Char → Option (List Char)
  | .code, [] => some []
  | .line, [] => some []
  | .block, [] => none
  | .code, [c] => if c = dquote ∨ c = squote then none else some [c]
  | .code, c :: d :: rest =>
    if c = dquote ∨ c = squote then none
    else if c = '/' ∧ d = '*' then (stripComments .block rest).map (fun r => ' ' :: r)
    else if c = '/' ∧ d = '/' then (stripComments .line rest).map (fun r => ' ' :: r)
    else (stripComments .code (d :: rest)).map (fun r => c :: r)
  | .line, c :: rest =>
    if c = newline then (stripComments .code rest).map (fun r => c :: r)
    else stripComments .line rest
  | .block, [_] => none
  | .block, c :: d :: rest =>
    if c = '*' ∧ d = '/' then stripComments .code rest
    else stripComments .block (d :: rest)

/-- Split a character stream at its line feeds. -/
def splitLines : List Char → List (List Char)
  | [] => [[]]
  | c :: rest =>
    if c = newline then [] :: splitLines rest
    else
      match splitLines rest with
      | [] => [[c]]
      | l :: ls => (c :: l) :: ls

/-- The logical lines of a file: spliced, without comments. -/
def logicalLines (file : List String) : Option (List (List Char)) :=
  (stripComments .code (spliceLines (joinLines file))).map splitLines

/-! ## Tokens and directives -/

/-- The preprocessing tokens the fragment tells apart. -/
inductive Token
  | hash
  | lparen
  | rparen
  | oror
  | ident (s : String)
  | other (c : Char)
  deriving DecidableEq, Repr

/-- Characters of identifiers and numbers. -/
def isIdentChar (c : Char) : Bool :=
  c.isAlphanum || c = '_'

/-- Blank characters inside a line. -/
def isBlank (c : Char) : Bool :=
  c = ' ' || c = Char.ofNat 9 || c = Char.ofNat 11 || c = Char.ofNat 12 || c = Char.ofNat 13

/-- The word collected so far, as a token list (empty when there is none). -/
def flushWord (acc : List Char) : List Token :=
  if acc.isEmpty then [] else [Token.ident (String.mk acc)]

/-- Tokenise one logical line; `acc` is the identifier being read. -/
def tokenize (acc : List Char) : List Char → List Token
  | [] => flushWord acc
  | [c] =>
    if isIdentChar c then flushWord (acc ++ [c])
    else if isBlank c then flushWord acc
    else if c = '#' then flushWord acc ++ [Token.hash]
    else if c = '(' then flushWord acc ++ [Token.lparen]
    else if c = ')' then flushWord acc ++ [Token.rparen]
    else flushWord acc ++ [Token.other c]
  | c :: d :: rest =>
    if isIdentChar c then tokenize (acc ++ [c]) (d :: rest)
    else if isBlank c then flushWord acc ++ tokenize [] (d :: rest)
    else if c = '#' then flushWord acc ++ Token.hash :: tokenize [] (d :: rest)
    else if c = '(' then flushWord acc ++ Token.lparen :: tokenize [] (d :: rest)
    else if c = ')' then flushWord acc ++ Token.rparen :: tokenize [] (d :: rest)
    else if c = '|' ∧ d = '|' then flushWord acc ++ Token.oror :: tokenize [] rest
    else flushWord acc ++ Token.other c :: tokenize [] (d :: rest)

/-- A macro name: a word that does not start with a digit. -/
def isName (s : String) : Bool :=
  match s.toList with
  | [] => false
  | c :: _ => !c.isDigit

/-- The controlling expressions of `#if` in the fragment: `defined` tests
joined by `||`. -/
inductive Cond
  | defined (name : String)
  | or (a b : Cond)
  deriving DecidableEq, Repr

/-- Read `defined(NAME) || defined NAME || ...` from a token list. -/
def parseCond : List Token → Option Cond
  | Token.ident d :: Token.lparen :: Token.ident n :: Token.rparen :: rest =>
    if d = "defined" ∧ isName n then
      match rest with
      | [] => some (Cond.defined n)
      | Token.oror :: rest2 => (parseCond rest2).map (fun c => Cond.or (Cond.defined n) c)
      | _ => none
    else none
  | Token.ident d :: Token.ident n :: rest =>
    if d = "defined" ∧ isName n then
      match rest with
      | [] => some (Cond.defined n)
      | Token.oror :: rest2 => (parseCond rest2).map (fun c => Cond.or (Cond.defined n) c)
      | _ => none
    else none
  | _ => none

/-- The directives of the fragment. -/
inductive Directive
  | ifndef (name : String)
  | ifdef (name : String)
  | ifCond (c : Cond)
  | endif
  | define (name : String)
  | undef (name : String)
  deriving DecidableEq, Repr

/-- What one logical line is. -/
inductive Line
  | plain
  | directive (d : Directive)
  | unsupported
  deriving DecidableEq, Repr

/-- Classify a tokenised logical line.  A line is a directive when its first
token is `#`.  A `#define` keeps only the name: the environment records which
names are defined, not their replacement lists. -/
def parseLine : List Token → Line
  | Token.hash :: Token.ident kw :: rest =>
    if kw = "ifndef" then
      match rest with
      | [Token.ident n] => if isName n then .directive (.ifndef n) else .unsupported
      | _ => .unsupported
    else if kw = "ifdef" then
      match rest with
      | [Token.ident n] => if isName n then .directive (.ifdef n) else .unsupported
      | _ => .unsupported
    else if kw = "undef" then
      match rest with
      | [Token.ident n] => if isName n then .directive (.undef n) else .unsupported
      | _ => .unsupported
    else if kw = "define" then
      match rest with
      | Token.ident n :: _ => if isName n then .directive (.define n) else .unsupported
      | _ => .unsupported
    else if kw = "if" then
      match parseCond rest with
      | some c => .directive (.ifCond c)
      | none => .unsupported
    else if kw = "endif" then
      match rest with
      | [] => .directive .endif
      | _ => .unsupported
    else .unsupported
  | [Token.hash] => .plain
  | Token.hash :: _ => .unsupported
  | _ => .plain

/-- The directives of a list of classified lines, in order; `none` as soon as
one line is outside the fragment. -/
def collect : List Line → Option (List Directive)
  | [] => some []
  | .plain :: ls => collect ls
  | .directive d :: ls => (collect ls).map (fun ds => d :: ds)
  | .unsupported :: _ => none

/-- The directives of a file. -/
def directives (file : List String) : Option (List Directive) :=
  (logicalLines file).bind (fun ls => collect (ls.map (fun l => parseLine (tokenize [] l))))

/-! ## Macro environments and the conditional-inclusion machine -/

/-- A macro environment: the set of names that are defined. -/
abbrev Env := Finset String

/-- Value of a controlling expression in an environment. -/
def Cond.eval (env : Env) : Cond → Bool
  | .defined n => decide (n ∈ env)
  | .or a b => a.eval env || b.eval env

/-- State of the preprocessor between two lines: the environment, and one flag
per open conditional group (innermost first) telling whether the lines of that
group are processed or skipped. -/
structure PPState where
  env : Env
  groups : List Bool

/-- Lines are processed when no enclosing group is being skipped. -/
def PPState.active (st : PPState) : Bool :=
  st.groups.all (fun g => g)

/-- Execute one directive.  In a skipped group only the nesting of
conditionals is tracked.  An `#endif` with no open group is an error. -/
def step (st : PPState) : Directive → Option PPState
  | .ifndef n => some { st with groups := (st.active && decide (n ∉ st.env)) :: st.groups }
  | .ifdef n => some { st with groups := (st.active && decide (n ∈ st.env)) :: st.groups }
  | .ifCond c => some { st with groups := (st.active && c.eval st.env) :: st.groups }
  | .endif =>
    match st.groups with
    | [] => none
    | _ :: gs => some { st with groups := gs }
  | .define n => some (if st.active then { st with env := insert n st.env } else st)
  | .undef n => some (if st.active then { st with env := st.env.erase n } else st)

/-- Execute a list of directives in order. -/
def run : PPState → List Directive → Option PPState
  | st, [] => some st
  | st, d :: ds => (step st d).bind (fun st2 => run st2 ds)

/-- Preprocess a file in an environment: the environment afterwards, or `none`
when the file is outside the fragment, closes a group it did not open, or
leaves a group open. -/
def preprocess (file : List String) (env : Env) : Option Env :=
  (directives file).bind (fun ds =>
    (run { env := env, groups := [] } ds).bind (fun st =>
      if st.groups.isEmpty then some st.env else none))

/-- Including `wasmtime/conf.h` in environment `env`. -/
def includeConfH (env : Env) : Option Env :=
  preprocess confH env

/-! ## The `WASMTIME_FEATURE_LIST` block -/

/-- Does `pat` occur in the character list? -/
def hasInfix (pat : List Char) : List Char → Bool
  | [] => pat.isEmpty
  | c :: rest => pat.isPrefixOf (c :: rest) || hasInfix pat rest

/-- A source line carrying the marker `WASMTIME_FEATURE_LIST`. -/
def isMarker (l : String) : Bool :=
  hasInfix "WASMTIME_FEATURE_LIST".toList l.toList

/-- The source lines strictly between the first marker line and the next. -/
def featureBlock (file : List String) : List String :=
  ((file.dropWhile (fun l => !isMarker l)).drop 1).takeWhile (fun l => !isMarker l)

/-- An entry of the feature list: a switch that is set, `#define NAME`, or one
that is not, which the generator writes as `/* #undef NAME */`. -/
inductive Entry
  | set (name : String)
  | unset (name : String)
  deriving DecidableEq, Repr

/-- The switch an entry is about. -/
def Entry.name : Entry → String
  | .set n => n
  | .unset n => n

/-- Is the entry a `#define`? -/
def Entry.isSet : Entry → Bool
  | .set _ => true
  | .unset _ => false

/-- Read a source line as a feature-list entry. -/
def parseEntry (l : String) : Option Entry :=
  match tokenize [] l.toList with
  | [Token.hash, Token.ident kw, Token.ident n] =>
    if kw = "define" ∧ isName n then some (.set n) else none
  | [Token.other a, Token.other b, Token.hash, Token.ident kw, Token.ident n,
      Token.other c, Token.other d] =>
    if a = '/' ∧ b = '*' ∧ kw = "undef" ∧ isName n ∧ c = '*' ∧ d = '/' then some (.unset n)
    else none
  | _ => none

/-- The entries of the feature list of a file, in order. -/
def featureEntries (file : List String) : List Entry :=
  (featureBlock file).filterMap parseEntry

/-- A name of the `WASMTIME_FEATURE_*` family. -/
def isFeatureName (s : String) : Bool :=
  "WASMTIME_FEATURE_".toList.isPrefixOf s.toList

/-- The `WASMTIME_FEATURE_*` words of one source line, comments included. -/
def featureWords (l : String) : List String :=
  (tokenize [] l.toList).filterMap (fun t =>
    match t with
    | Token.ident s => if isFeatureName s then some s else none
    | _ => none)

/-- Every occurrence of a `WASMTIME_FEATURE_*` word in the feature list. -/
def featureMentions (file : List String) : List String :=
  (featureBlock file).flatMap featureWords

/-- The names the directives of a file define or undefine, wherever they are. -/
def assignedNames : List Directive → List String
  | [] => []
  | .define n :: ds => n :: assignedNames ds
  | .undef n :: ds => n :: assignedNames ds
  | _ :: ds => assignedNames ds

/-! ## Names used in the statements -/

/-- The include guard of the header. -/
def WASMTIME_CONF_H : String := "WASMTIME_CONF_H"

/-- The Cranelift backend switch. -/
def WASMTIME_FEATURE_CRANELIFT : String := "WASMTIME_FEATURE_CRANELIFT"

/-- The Winch backend switch. -/
def WASMTIME_FEATURE_WINCH : String := "WASMTIME_FEATURE_WINCH"

/-- The derived macro. -/
def WASMTIME_FEATURE_COMPILER : String := "WASMTIME_FEATURE_COMPILER"

/-- The one switch this build sets. -/
def WASMTIME_FEATURE_DISABLE_LOGGING : String := "WASMTIME_FEATURE_DISABLE_LOGGING"

/-- A switch this build leaves unset. -/
def WASMTIME_FEATURE_LOGGING : String := "WASMTIME_FEATURE_LOGGING"

/-- The environment after a first inclusion of the header in `env`, spelled
out: the guard and `WASMTIME_FEATURE_DISABLE_LOGGING` are added, and
`WASMTIME_FEATURE_COMPILER` too when a backend switch is defined. -/
def firstInclusion (env : Env) : Env :=
  if WASMTIME_FEATURE_CRANELIFT ∈ env ∨ WASMTIME_FEATURE_WINCH ∈ env then
    insert WASMTIME_FEATURE_COMPILER
      (insert WASMTIME_FEATURE_DISABLE_LOGGING (insert WASMTIME_CONF_H env))
  else insert WASMTIME_FEATURE_DISABLE_LOGGING (insert WASMTIME_CONF_H env)

/-! ## What the header parses to, and what including it does -/

/-- The directives of `conf.h`: the guard, the one switch that is set, and the
derived block.  The 21 `#undef` lines are comments and yield no directive. -/
theorem directives_confH :
    directives confH = some
      [ Directive.ifndef "WASMTIME_CONF_H",
        Directive.define "WASMTIME_CONF_H",
        Directive.define "WASMTIME_FEATURE_DISABLE_LOGGING",
        Directive.ifCond (Cond.or (Cond.defined "WASMTIME_FEATURE_CRANELIFT")
          (Cond.defined "WASMTIME_FEATURE_WINCH")),
        Directive.define "WASMTIME_FEATURE_COMPILER",
        Directive.endif,
        Directive.endif ] := by
  decide

/-- Closed form of an inclusion: the environment is returned as it is when the
guard is already defined, and `firstInclusion` of it otherwise. -/
theorem includeConfH_eq (env : Env) :
    includeConfH env = some (if WASMTIME_CONF_H ∈ env then env else firstInclusion env) := by
  unfold includeConfH preprocess firstInclusion
  rw [directives_confH]
  by_cases hg : "WASMTIME_CONF_H" ∈ env
  · simp [run, step, PPState.active, Cond.eval, WASMTIME_CONF_H, hg]
  · by_cases hc : "WASMTIME_FEATURE_CRANELIFT" ∈ env
    · simp [run, step, PPState.active, Cond.eval, WASMTIME_CONF_H,
        WASMTIME_FEATURE_CRANELIFT, WASMTIME_FEATURE_WINCH, WASMTIME_FEATURE_COMPILER,
        WASMTIME_FEATURE_DISABLE_LOGGING, hg, hc]
    · by_cases hw : "WASMTIME_FEATURE_WINCH" ∈ env
      · simp [run, step, PPState.active, Cond.eval, WASMTIME_CONF_H,
          WASMTIME_FEATURE_CRANELIFT, WASMTIME_FEATURE_WINCH, WASMTIME_FEATURE_COMPILER,
          WASMTIME_FEATURE_DISABLE_LOGGING, hg, hc, hw]
      · simp [run, step, PPState.active, Cond.eval, WASMTIME_CONF_H,
          WASMTIME_FEATURE_CRANELIFT, WASMTIME_FEATURE_WINCH, WASMTIME_FEATURE_COMPILER,
          WASMTIME_FEATURE_DISABLE_LOGGING, hg, hc, hw]

/-- Membership in the environment after a first inclusion. -/
theorem mem_firstInclusion (env : Env) (n : String) :
    n ∈ firstInclusion env ↔
      (n = WASMTIME_CONF_H ∨ n = WASMTIME_FEATURE_DISABLE_LOGGING ∨
        (n = WASMTIME_FEATURE_COMPILER ∧
          (WASMTIME_FEATURE_CRANELIFT ∈ env ∨ WASMTIME_FEATURE_WINCH ∈ env)) ∨ n ∈ env) := by
  unfold firstInclusion
  by_cases hb : WASMTIME_FEATURE_CRANELIFT ∈ env ∨ WASMTIME_FEATURE_WINCH ∈ env
  · rw [if_pos hb]
    simp only [Finset.mem_insert, hb, and_true]
    tauto
  · rw [if_neg hb]
    simp only [Finset.mem_insert, hb, and_false, false_or]
    tauto

/-- The five names the statements tell apart are different strings. -/
theorem names_distinct :
    WASMTIME_FEATURE_COMPILER ≠ WASMTIME_CONF_H ∧
    WASMTIME_FEATURE_COMPILER ≠ WASMTIME_FEATURE_DISABLE_LOGGING ∧
    WASMTIME_FEATURE_COMPILER ≠ WASMTIME_FEATURE_CRANELIFT ∧
    WASMTIME_FEATURE_COMPILER ≠ WASMTIME_FEATURE_WINCH ∧
    WASMTIME_FEATURE_CRANELIFT ≠ WASMTIME_CONF_H ∧
    WASMTIME_FEATURE_CRANELIFT ≠ WASMTIME_FEATURE_DISABLE_LOGGING ∧
    WASMTIME_FEATURE_CRANELIFT ≠ WASMTIME_FEATURE_WINCH ∧
    WASMTIME_FEATURE_WINCH ≠ WASMTIME_CONF_H ∧
    WASMTIME_FEATURE_WINCH ≠ WASMTIME_FEATURE_DISABLE_LOGGING ∧
    WASMTIME_FEATURE_LOGGING ≠ WASMTIME_CONF_H ∧
    WASMTIME_FEATURE_LOGGING ≠ WASMTIME_FEATURE_DISABLE_LOGGING ∧
    WASMTIME_FEATURE_LOGGING ≠ WASMTIME_FEATURE_COMPILER := by
  decide

/-- After a first inclusion the derived macro is defined exactly when it was
defined before or a backend switch is defined. -/
theorem compiler_mem_firstInclusion (env : Env) :
    WASMTIME_FEATURE_COMPILER ∈ firstInclusion env ↔
      (WASMTIME_FEATURE_COMPILER ∈ env ∨
        WASMTIME_FEATURE_CRANELIFT ∈ env ∨ WASMTIME_FEATURE_WINCH ∈ env) := by
  obtain ⟨h1, h2, -⟩ := names_distinct
  rw [mem_firstInclusion]
  constructor
  · rintro (h | h | h | h)
    · exact absurd h h1
    · exact absurd h h2
    · exact Or.inr h.2
    · exact Or.inl h
  · rintro (h | h)
    · exact Or.inr (Or.inr (Or.inr h))
    · exact Or.inr (Or.inr (Or.inl ⟨rfl, h⟩))

/-- A first inclusion does not change whether a backend switch is defined. -/
theorem backend_mem_firstInclusion (env : Env) :
    (WASMTIME_FEATURE_CRANELIFT ∈ firstInclusion env ↔ WASMTIME_FEATURE_CRANELIFT ∈ env) ∧
    (WASMTIME_FEATURE_WINCH ∈ firstInclusion env ↔ WASMTIME_FEATURE_WINCH ∈ env) := by
  obtain ⟨-, -, h3, h4, h5, h6, -, h8, h9, -⟩ := names_distinct
  constructor
  · rw [mem_firstInclusion]
    constructor
    · rintro (h | h | h | h)
      · exact absurd h h5
      · exact absurd h h6
      · exact absurd h.1.symm h3
      · exact h
    · exact fun h => Or.inr (Or.inr (Or.inr h))
  · rw [mem_firstInclusion]
    constructor
    · rintro (h | h | h | h)
      · exact absurd h h8
      · exact absurd h h9
      · exact absurd h.1.symm h4
      · exact h
    · exact fun h => Or.inr (Or.inr (Or.inr h))

/-! ## The fragment at work: `#undef` in code and in a comment

The header's 21 `#undef` lines are comments.  The two files below differ only
in the comment delimiters, and only the first one removes the macro. -/

/-- An `#undef` line in code is a directive. -/
theorem directives_undef_line :
    directives ["#undef WASMTIME_FEATURE_LOGGING"] =
      some [ Directive.undef WASMTIME_FEATURE_LOGGING ] := by
  decide

/-- The same line inside a block comment is no directive. -/
theorem directives_commented_undef_line :
    directives ["/* #undef WASMTIME_FEATURE_LOGGING */"] = some [] := by
  decide

/-- An `#undef` in code removes the macro. -/
theorem preprocess_undef_line :
    preprocess ["#undef WASMTIME_FEATURE_LOGGING"] {WASMTIME_FEATURE_LOGGING} = some ∅ := by
  unfold preprocess
  rw [directives_undef_line]
  simp [run, step, PPState.active]

/-- An `#undef` in a comment leaves the macro defined. -/
theorem preprocess_commented_undef_line :
    preprocess ["/* #undef WASMTIME_FEATURE_LOGGING */"] {WASMTIME_FEATURE_LOGGING} =
      some {WASMTIME_FEATURE_LOGGING} := by
  unfold preprocess
  rw [directives_commented_undef_line]
  simp [run]

/-! ## C1: the derived macro against its two inputs -/

/-- C1, as stated, fails at two starting environments.  With only
`WASMTIME_FEATURE_COMPILER` defined beforehand the inclusion succeeds and
leaves it defined although neither backend switch is; with `WASMTIME_CONF_H`
and `WASMTIME_FEATURE_CRANELIFT` defined beforehand the guard skips the body,
so `WASMTIME_FEATURE_COMPILER` stays undefined although a backend switch is
defined. -/
theorem c1_fails_on_predefined_compiler_or_guard :
    (∃ e, includeConfH {WASMTIME_FEATURE_COMPILER} = some e ∧
      ¬ (WASMTIME_FEATURE_COMPILER ∈ e ↔
        (WASMTIME_FEATURE_CRANELIFT ∈ e ∨ WASMTIME_FEATURE_WINCH ∈ e))) ∧
    (∃ e, includeConfH {WASMTIME_CONF_H, WASMTIME_FEATURE_CRANELIFT} = some e ∧
      ¬ (WASMTIME_FEATURE_COMPILER ∈ e ↔
        (WASMTIME_FEATURE_CRANELIFT ∈ e ∨ WASMTIME_FEATURE_WINCH ∈ e))) := by
  constructor
  · refine ⟨_, includeConfH_eq _, ?_⟩
    simp [firstInclusion, WASMTIME_CONF_H, WASMTIME_FEATURE_CRANELIFT, WASMTIME_FEATURE_WINCH,
      WASMTIME_FEATURE_COMPILER, WASMTIME_FEATURE_DISABLE_LOGGING]
  · refine ⟨_, includeConfH_eq _, ?_⟩
    simp [firstInclusion, WASMTIME_CONF_H, WASMTIME_FEATURE_CRANELIFT, WASMTIME_FEATURE_WINCH,
      WASMTIME_FEATURE_COMPILER, WASMTIME_FEATURE_DISABLE_LOGGING]

/-- C1, amended: for every starting environment in which neither
`WASMTIME_CONF_H` nor `WASMTIME_FEATURE_COMPILER` is defined, including
`conf.h` succeeds, and afterwards `WASMTIME_FEATURE_COMPILER` is defined if and
only if at least one of `WASMTIME_FEATURE_CRANELIFT`, `WASMTIME_FEATURE_WINCH`
is defined (afterwards, and equally beforehand). -/
theorem compiler_iff_backend_on_first_inclusion (env : Env)
    (hguard : WASMTIME_CONF_H ∉ env) (hcomp : WASMTIME_FEATURE_COMPILER ∉ env) :
    ∃ e, includeConfH env = some e ∧
      (WASMTIME_FEATURE_COMPILER ∈ e ↔
        (WASMTIME_FEATURE_CRANELIFT ∈ e ∨ WASMTIME_FEATURE_WINCH ∈ e)) ∧
      (WASMTIME_FEATURE_COMPILER ∈ e ↔
        (WASMTIME_FEATURE_CRANELIFT ∈ env ∨ WASMTIME_FEATURE_WINCH ∈ env)) := by
  refine ⟨_, includeConfH_eq env, ?_, ?_⟩
  · rw [if_neg hguard, compiler_mem_firstInclusion, (backend_mem_firstInclusion env).1,
      (backend_mem_firstInclusion env).2]
    exact ⟨fun h => h.resolve_left hcomp, Or.inr⟩
  · rw [if_neg hguard, compiler_mem_firstInclusion]
    exact ⟨fun h => h.resolve_left hcomp, Or.inr⟩

/-- C1, amended, at the environment where only `WASMTIME_FEATURE_CRANELIFT` is
defined. -/
theorem compiler_iff_backend_on_first_inclusion_witness :
    WASMTIME_CONF_H ∉ ({WASMTIME_FEATURE_CRANELIFT} : Env) ∧
    WASMTIME_FEATURE_COMPILER ∉ ({WASMTIME_FEATURE_CRANELIFT} : Env) ∧
    ∃ e, includeConfH {WASMTIME_FEATURE_CRANELIFT} = some e ∧
      (WASMTIME_FEATURE_COMPILER ∈ e ↔
        (WASMTIME_FEATURE_CRANELIFT ∈ e ∨ WASMTIME_FEATURE_WINCH ∈ e)) ∧
      (WASMTIME_FEATURE_COMPILER ∈ e ↔
        (WASMTIME_FEATURE_CRANELIFT ∈ ({WASMTIME_FEATURE_CRANELIFT} : Env) ∨
          WASMTIME_FEATURE_WINCH ∈ ({WASMTIME_FEATURE_CRANELIFT} : Env))) :=
  ⟨by decide, by decide,
    compiler_iff_backend_on_first_inclusion {WASMTIME_FEATURE_CRANELIFT}
      (by decide) (by decide)⟩

/-! ## C2: what the derived macro depends on -/

/-- C2, as stated, fails for two pairs of starting environments that agree on
both backend switches.  The empty environment and the one with only
`WASMTIME_FEATURE_COMPILER` end with the derived macro undefined and defined;
the environment with only `WASMTIME_FEATURE_CRANELIFT` and the one that also
has `WASMTIME_CONF_H` end with it defined and undefined. -/
theorem c2_fails_on_predefined_compiler_or_guard :
    (∃ e1 e2, includeConfH ∅ = some e1 ∧
      includeConfH {WASMTIME_FEATURE_COMPILER} = some e2 ∧
      (WASMTIME_FEATURE_CRANELIFT ∈ (∅ : Env) ↔
        WASMTIME_FEATURE_CRANELIFT ∈ ({WASMTIME_FEATURE_COMPILER} : Env)) ∧
      (WASMTIME_FEATURE_WINCH ∈ (∅ : Env) ↔
        WASMTIME_FEATURE_WINCH ∈ ({WASMTIME_FEATURE_COMPILER} : Env)) ∧
      WASMTIME_FEATURE_COMPILER ∉ e1 ∧ WASMTIME_FEATURE_COMPILER ∈ e2) ∧
    (∃ e1 e2, includeConfH {WASMTIME_FEATURE_CRANELIFT} = some e1 ∧
      includeConfH {WASMTIME_FEATURE_CRANELIFT, WASMTIME_CONF_H} = some e2 ∧
      (WASMTIME_FEATURE_CRANELIFT ∈ ({WASMTIME_FEATURE_CRANELIFT} : Env) ↔
        WASMTIME_FEATURE_CRANELIFT ∈ ({WASMTIME_FEATURE_CRANELIFT, WASMTIME_CONF_H} : Env)) ∧
      (WASMTIME_FEATURE_WINCH ∈ ({WASMTIME_FEATURE_CRANELIFT} : Env) ↔
        WASMTIME_FEATURE_WINCH ∈ ({WASMTIME_FEATURE_CRANELIFT, WASMTIME_CONF_H} : Env)) ∧
      WASMTIME_FEATURE_COMPILER ∈ e1 ∧ WASMTIME_FEATURE_COMPILER ∉ e2) := by
  constructor
  · refine ⟨_, _, includeConfH_eq _, includeConfH_eq _, ?_, ?_, ?_, ?_⟩ <;>
      simp [firstInclusion, WASMTIME_CONF_H, WASMTIME_FEATURE_CRANELIFT,
        WASMTIME_FEATURE_WINCH, WASMTIME_FEATURE_COMPILER, WASMTIME_FEATURE_DISABLE_LOGGING]
  · refine ⟨_, _, includeConfH_eq _, includeConfH_eq _, ?_, ?_, ?_, ?_⟩ <;>
      simp [firstInclusion, WASMTIME_CONF_H, WASMTIME_FEATURE_CRANELIFT,
        WASMTIME_FEATURE_WINCH, WASMTIME_FEATURE_COMPILER, WASMTIME_FEATURE_DISABLE_LOGGING]

/-- C2, amended: for every two starting environments that agree on whether
`WASMTIME_FEATURE_CRANELIFT` is defined, on whether `WASMTIME_FEATURE_WINCH`
is defined, and also on whether `WASMTIME_FEATURE_COMPILER` and
`WASMTIME_CONF_H` are defined, including `conf.h` succeeds in both and leaves
`WASMTIME_FEATURE_COMPILER` defined in both or undefined in both, whatever
else the two environments differ in. -/
theorem compiler_determined_by_four_inputs (env1 env2 : Env)
    (hcr : WASMTIME_FEATURE_CRANELIFT ∈ env1 ↔ WASMTIME_FEATURE_CRANELIFT ∈ env2)
    (hwi : WASMTIME_FEATURE_WINCH ∈ env1 ↔ WASMTIME_FEATURE_WINCH ∈ env2)
    (hco : WASMTIME_FEATURE_COMPILER ∈ env1 ↔ WASMTIME_FEATURE_COMPILER ∈ env2)
    (hgu : WASMTIME_CONF_H ∈ env1 ↔ WASMTIME_CONF_H ∈ env2) :
    ∃ e1 e2, includeConfH env1 = some e1 ∧ includeConfH env2 = some e2 ∧
      (WASMTIME_FEATURE_COMPILER ∈ e1 ↔ WASMTIME_FEATURE_COMPILER ∈ e2) := by
  refine ⟨_, _, includeConfH_eq env1, includeConfH_eq env2, ?_⟩
  by_cases hg : WASMTIME_CONF_H ∈ env1
  · rw [if_pos hg, if_pos (hgu.mp hg)]
    exact hco
  · rw [if_neg hg, if_neg (fun h => hg (hgu.mpr h)), compiler_mem_firstInclusion,
      compiler_mem_firstInclusion, hcr, hwi, hco]

/-- C2, amended, at two environments that differ outside the four names: both
have `WASMTIME_FEATURE_WINCH`, one also `NDEBUG`, the other also
`WASMTIME_FEATURE_LOGGING`. -/
theorem compiler_determined_by_four_inputs_witness :
    (WASMTIME_FEATURE_CRANELIFT ∈ ({WASMTIME_FEATURE_WINCH, "NDEBUG"} : Env) ↔
      WASMTIME_FEATURE_CRANELIFT ∈
        ({WASMTIME_FEATURE_WINCH, WASMTIME_FEATURE_LOGGING} : Env)) ∧
    (WASMTIME_FEATURE_WINCH ∈ ({WASMTIME_FEATURE_WINCH, "NDEBUG"} : Env) ↔
      WASMTIME_FEATURE_WINCH ∈ ({WASMTIME_FEATURE_WINCH, WASMTIME_FEATURE_LOGGING} : Env)) ∧
    (WASMTIME_FEATURE_COMPILER ∈ ({WASMTIME_FEATURE_WINCH, "NDEBUG"} : Env) ↔
      WASMTIME_FEATURE_COMPILER ∈
        ({WASMTIME_FEATURE_WINCH, WASMTIME_FEATURE_LOGGING} : Env)) ∧
    (WASMTIME_CONF_H ∈ ({WASMTIME_FEATURE_WINCH, "NDEBUG"} : Env) ↔
      WASMTIME_CONF_H ∈ ({WASMTIME_FEATURE_WINCH, WASMTIME_FEATURE_LOGGING} : Env)) ∧
    ∃ e1 e2, includeConfH {WASMTIME_FEATURE_WINCH, "NDEBUG"} = some e1 ∧
      includeConfH {WASMTIME_FEATURE_WINCH, WASMTIME_FEATURE_LOGGING} = some e2 ∧
      (WASMTIME_FEATURE_COMPILER ∈ e1 ↔ WASMTIME_FEATURE_COMPILER ∈ e2) :=
  ⟨by decide, by decide, by decide, by decide,
    compiler_determined_by_four_inputs {WASMTIME_FEATURE_WINCH, "NDEBUG"}
      {WASMTIME_FEATURE_WINCH, WASMTIME_FEATURE_LOGGING}
      (by decide) (by decide) (by decide) (by decide)⟩

/-! ## C3: the feature list -/

/-- C3: the feature list of `conf.h` (the lines between the two
`WASMTIME_FEATURE_LIST` markers) has 22 define/undef entries; their names are
pairwise different; the `WASMTIME_FEATURE_*` words occurring in the block are
exactly the names of the entries, each occurring in exactly one entry; all of
them belong to the `WASMTIME_FEATURE_*` family and none is
`WASMTIME_FEATURE_COMPILER`, which the header assigns only in the derived
block `#if defined(WASMTIME_FEATURE_CRANELIFT) || defined(WASMTIME_FEATURE_WINCH)`. -/
theorem feature_list_sets_each_switch_once :
    (featureEntries confH).length = 22 ∧
    ((featureEntries confH).map Entry.name).Nodup ∧
    featureMentions confH = (featureEntries confH).map Entry.name ∧
    (∀ n ∈ featureMentions confH,
      ((featureEntries confH).filter (fun en => en.name = n)).length = 1) ∧
    (∀ en ∈ featureEntries confH, isFeatureName en.name = true) ∧
    WASMTIME_FEATURE_COMPILER ∉ (featureEntries confH).map Entry.name ∧
    (∃ pre post,
      directives confH = some
        (pre ++
          [ Directive.ifCond
              (Cond.or (Cond.defined WASMTIME_FEATURE_CRANELIFT)
                (Cond.defined WASMTIME_FEATURE_WINCH)),
            Directive.define WASMTIME_FEATURE_COMPILER, Directive.endif ] ++ post) ∧
      WASMTIME_FEATURE_COMPILER ∉ assignedNames pre ∧
      WASMTIME_FEATURE_COMPILER ∉ assignedNames post) := by
  refine ⟨by decide, by decide, by decide, by decide, by decide, by decide, ?_⟩
  exact ⟨[ Directive.ifndef WASMTIME_CONF_H, Directive.define WASMTIME_CONF_H,
      Directive.define WASMTIME_FEATURE_DISABLE_LOGGING ], [ Directive.endif ],
    by decide, by decide, by decide⟩

/-! ## C4: this build, from a clean environment -/

/-- C4: from a starting environment in which neither `WASMTIME_CONF_H` nor any
`WASMTIME_FEATURE_*` name is defined, including `conf.h` succeeds and yields
the starting environment plus `WASMTIME_CONF_H` and
`WASMTIME_FEATURE_DISABLE_LOGGING`; among those names exactly these two are
defined afterwards; in particular `WASMTIME_FEATURE_CRANELIFT`,
`WASMTIME_FEATURE_WINCH`, `WASMTIME_FEATURE_LOGGING` and
`WASMTIME_FEATURE_COMPILER` are undefined. -/
theorem clean_inclusion_defines_guard_and_disable_logging (env : Env)
    (hclean : ∀ n, (n = WASMTIME_CONF_H ∨ isFeatureName n = true) → n ∉ env) :
    ∃ e, includeConfH env = some e ∧
      e = insert WASMTIME_FEATURE_DISABLE_LOGGING (insert WASMTIME_CONF_H env) ∧
      (∀ n, (n = WASMTIME_CONF_H ∨ isFeatureName n = true) →
        (n ∈ e ↔ (n = WASMTIME_CONF_H ∨ n = WASMTIME_FEATURE_DISABLE_LOGGING))) ∧
      WASMTIME_FEATURE_CRANELIFT ∉ e ∧ WASMTIME_FEATURE_WINCH ∉ e ∧
      WASMTIME_FEATURE_LOGGING ∉ e ∧ WASMTIME_FEATURE_COMPILER ∉ e := by
  have hg : WASMTIME_CONF_H ∉ env := hclean _ (Or.inl rfl)
  have hc : WASMTIME_FEATURE_CRANELIFT ∉ env := hclean _ (Or.inr (by decide))
  have hw : WASMTIME_FEATURE_WINCH ∉ env := hclean _ (Or.inr (by decide))
  have hl : WASMTIME_FEATURE_LOGGING ∉ env := hclean _ (Or.inr (by decide))
  have hk : WASMTIME_FEATURE_COMPILER ∉ env := hclean _ (Or.inr (by decide))
  have hb : ¬ (WASMTIME_FEATURE_CRANELIFT ∈ env ∨ WASMTIME_FEATURE_WINCH ∈ env) :=
    fun h => h.elim hc hw
  have hmem : ∀ n, (n = WASMTIME_CONF_H ∨ isFeatureName n = true) →
      (n ∈ firstInclusion env ↔
        (n = WASMTIME_CONF_H ∨ n = WASMTIME_FEATURE_DISABLE_LOGGING)) := by
    intro n hn
    have hne : n ∉ env := hclean n hn
    rw [mem_firstInclusion]
    constructor
    · rintro (h | h | h | h)
      · exact Or.inl h
      · exact Or.inr h
      · exact absurd h.2 hb
      · exact absurd h hne
    · rintro (h | h)
      · exact Or.inl h
      · exact Or.inr (Or.inl h)
  refine ⟨_, includeConfH_eq env, ?_, ?_, ?_, ?_, ?_, ?_⟩
  · rw [if_neg hg, firstInclusion, if_neg hb]
  · rw [if_neg hg]
    exact hmem
  · rw [if_neg hg, hmem _ (Or.inr (by decide))]
    decide
  · rw [if_neg hg, hmem _ (Or.inr (by decide))]
    decide
  · rw [if_neg hg, hmem _ (Or.inr (by decide))]
    decide
  · rw [if_neg hg, hmem _ (Or.inr (by decide))]
    decide

/-- C4 at the environment in which only `NDEBUG` is defined. -/
theorem clean_inclusion_defines_guard_and_disable_logging_witness :
    (∀ n, (n = WASMTIME_CONF_H ∨ isFeatureName n = true) → n ∉ ({"NDEBUG"} : Env)) ∧
    ∃ e, includeConfH {"NDEBUG"} = some e ∧
      e = insert WASMTIME_FEATURE_DISABLE_LOGGING (insert WASMTIME_CONF_H {"NDEBUG"}) ∧
      (∀ n, (n = WASMTIME_CONF_H ∨ isFeatureName n = true) →
        (n ∈ e ↔ (n = WASMTIME_CONF_H ∨ n = WASMTIME_FEATURE_DISABLE_LOGGING))) ∧
      WASMTIME_FEATURE_CRANELIFT ∉ e ∧ WASMTIME_FEATURE_WINCH ∉ e ∧
      WASMTIME_FEATURE_LOGGING ∉ e ∧ WASMTIME_FEATURE_COMPILER ∉ e :=
  have hclean : ∀ n, (n = WASMTIME_CONF_H ∨ isFeatureName n = true) →
      n ∉ ({"NDEBUG"} : Env) := by
    intro n hn hmem
    rw [Finset.mem_singleton] at hmem
    subst hmem
    rcases hn with h | h
    · exact absurd h (by decide)
    · exact absurd h (by decide)
  ⟨hclean, clean_inclusion_defines_guard_and_disable_logging {"NDEBUG"} hclean⟩

/-! ## C5: including twice -/

/-- C5: for every starting environment, including `conf.h` succeeds, and
including it again in the resulting environment succeeds and returns that
environment unchanged. -/
theorem include_twice_is_include_once (env : Env) :
    ∃ e, includeConfH env = some e ∧ includeConfH e = some e := by
  refine ⟨_, includeConfH_eq env, ?_⟩
  rw [includeConfH_eq]
  congr 1
  apply if_pos
  by_cases hg : WASMTIME_CONF_H ∈ env
  · rw [if_pos hg]
    exact hg
  · rw [if_neg hg, mem_firstInclusion]
    exact Or.inl rfl

/-! ## C6: the frame of an inclusion -/

/-- C6: for every starting environment, including `conf.h` succeeds; every
name defined before is defined after; a name defined after but not before is
one of `WASMTIME_CONF_H`, `WASMTIME_FEATURE_DISABLE_LOGGING`,
`WASMTIME_FEATURE_COMPILER`; every other name is defined after exactly when it
was before, in particular each of the 21 switches of the feature list written
as `/* #undef NAME */`; and the header has no `#undef` directive at all. -/
theorem include_frame (env : Env) :
    ∃ e, includeConfH env = some e ∧
      env ⊆ e ∧
      (∀ n, n ∈ e → n ∉ env →
        (n = WASMTIME_CONF_H ∨ n = WASMTIME_FEATURE_DISABLE_LOGGING ∨
          n = WASMTIME_FEATURE_COMPILER)) ∧
      (∀ n, n ≠ WASMTIME_CONF_H → n ≠ WASMTIME_FEATURE_DISABLE_LOGGING →
        n ≠ WASMTIME_FEATURE_COMPILER → (n ∈ e ↔ n ∈ env)) ∧
      ((featureEntries confH).filter (fun en => !en.isSet)).length = 21 ∧
      (∀ en ∈ featureEntries confH, en.isSet = false → (en.name ∈ e ↔ en.name ∈ env)) ∧
      (∃ ds, directives confH = some ds ∧ ∀ d ∈ ds, ∀ n, d ≠ Directive.undef n) := by
  have hsub : ∀ n, n ∈ env →
      n ∈ (if WASMTIME_CONF_H ∈ env then env else firstInclusion env) := by
    intro n hn
    by_cases hg : WASMTIME_CONF_H ∈ env
    · rw [if_pos hg]
      exact hn
    · rw [if_neg hg, mem_firstInclusion]
      exact Or.inr (Or.inr (Or.inr hn))
  have hadd : ∀ n, n ∈ (if WASMTIME_CONF_H ∈ env then env else firstInclusion env) →
      n ∉ env →
      (n = WASMTIME_CONF_H ∨ n = WASMTIME_FEATURE_DISABLE_LOGGING ∨
        n = WASMTIME_FEATURE_COMPILER) := by
    intro n hn hne
    by_cases hg : WASMTIME_CONF_H ∈ env
    · rw [if_pos hg] at hn
      exact absurd hn hne
    · rw [if_neg hg, mem_firstInclusion] at hn
      rcases hn with h | h | h | h
      · exact Or.inl h
      · exact Or.inr (Or.inl h)
      · exact Or.inr (Or.inr h.1)
      · exact absurd h hne
  have hframe : ∀ n, n ≠ WASMTIME_CONF_H → n ≠ WASMTIME_FEATURE_DISABLE_LOGGING →
      n ≠ WASMTIME_FEATURE_COMPILER →
      (n ∈ (if WASMTIME_CONF_H ∈ env then env else firstInclusion env) ↔ n ∈ env) := by
    intro n h1 h2 h3
    constructor
    · intro hn
      by_contra hne
      rcases hadd n hn hne with h | h | h
      · exact h1 h
      · exact h2 h
      · exact h3 h
    · exact hsub n
  have hentries : ∀ en ∈ featureEntries confH, en.isSet = false →
      en.name ≠ WASMTIME_CONF_H ∧ en.name ≠ WASMTIME_FEATURE_DISABLE_LOGGING ∧
        en.name ≠ WASMTIME_FEATURE_COMPILER := by
    decide
  refine ⟨_, includeConfH_eq env, hsub, hadd, hframe, by decide, ?_, ?_⟩
  · intro en hen hset
    obtain ⟨h1, h2, h3⟩ := hentries en hen hset
    exact hframe _ h1 h2 h3
  · refine ⟨_, directives_confH, ?_⟩
    intro d hd n
    simp only [List.mem_cons, List.mem_singleton, List.not_mem_nil, or_false] at hd
    rcases hd with h | h | h | h | h | h | h <;> simp [h]

end WasmtimeConf
